import Mathlib

/-!
Verification of the power-interpreter execution engine against its
natural-language specification.

The definitions below are a shallow embedding of the Python sources:

* `app/engine/executor.py`   — `SandboxExecutor` (safe builtins, safe open,
  the import preprocessing, the `execute` control flow, `ExecutionResult.to_dict`);
* `app/engine/kernel_manager.py` — `KernelManager` (LRU table of sessions);
* `app/engine/memory_guard.py`   — `execute_with_memory_limit`;
* `app/routes/execute.py`    — the synchronous execute route;
* `app/routes/jobs.py`       — the job-result route;
* `app/config.py`            — `Settings` (blocked builtins, size limits).

Python strings are modelled as `List Char` (`Str` below); the Python string
operations used by the sources (`strip`, `split`, `startswith`, slicing,
substring tests) are re-implemented over `List Char` so that every definition
is executable and every concrete evaluation can go through `decide`/`rfl`.
-/

namespace PowerInterpreter

/-- Python strings, modelled as lists of characters. -/
abbrev Str := List Char

/-- Python `str.startswith(pre)`. -/
def pyStartsWith (s pre : Str) : Bool := pre.isPrefixOf s

/-- Python `c.isspace()`-style whitespace test, covering the characters the
sources can meet in code lines. -/
def isPySpace (c : Char) : Bool := c = ' ' ∨ c = '\t' ∨ c = '\n' ∨ c = '\r'

/-- Python `s[:n]` for a nonnegative bound `n` (slicing by code point). -/
def pySlice (s : Str) (n : Nat) : Str := s.take n

/-- Split a list at every occurrence of a single character, keeping empty
chunks — Python `s.split(c)` for a one-character separator. -/
def splitOnChar (c : Char) : Str → List Str
  | [] => [[]]
  | x :: xs =>
    let r := splitOnChar c xs
    if x = c then [] :: r
    else
      match r with
      | [] => [[x]]
      | h :: t => (x :: h) :: t

/-- Split at every character satisfying `p`, keeping empty chunks. -/
def splitOnP (p : Char → Bool) : Str → List Str
  | [] => [[]]
  | x :: xs =>
    let r := splitOnP p xs
    if p x then [] :: r
    else
      match r with
      | [] => [[x]]
      | h :: t => (x :: h) :: t

/-- Python `s.split()` with no argument: split on whitespace runs and drop
empty chunks. -/
def pySplitWs (s : Str) : List Str :=
  (splitOnP isPySpace s).filter (fun chunk => chunk ≠ [])

/-- Remove trailing whitespace (Python `s.rstrip()`). -/
def pyRStrip (s : Str) : Str :=
  (s.reverse.dropWhile isPySpace).reverse

/-- Python `s.strip()`: drop whitespace from both ends. -/
def pyStrip (s : Str) : Str :=
  pyRStrip (s.dropWhile isPySpace)

/-- Auxiliary worker for `pySplitOnSeq`, recursing on explicit fuel. -/
def splitOnSeqAux (sep : Str) : Nat → Str → Str → List Str
  | 0, acc, rest => [acc.reverse ++ rest]
  | _ + 1, acc, [] => [acc.reverse]
  | n + 1, acc, x :: xs =>
    if sep.isPrefixOf (x :: xs) then
      acc.reverse :: splitOnSeqAux sep n [] (List.drop sep.length (x :: xs))
    else
      splitOnSeqAux sep n (x :: acc) xs

/-- Python `s.split(sep)` for a non-empty multi-character separator:
left-to-right, non-overlapping occurrences. -/
def pySplitOnSeq (sep s : Str) : List Str :=
  if sep = [] then [s] else splitOnSeqAux sep (s.length + 1) [] s

/-- Python substring test `needle in hay`. -/
def containsSeq (needle : Str) : Str → Bool
  | [] => needle.isPrefixOf []
  | x :: xs => needle.isPrefixOf (x :: xs) || containsSeq needle xs

/-- Render a natural number in decimal. -/
def renderNat (n : Nat) : Str := Nat.toDigits 10 n

/-- Render an integer in decimal (Python `str(i)` for `int`). -/
def renderInt (i : Int) : Str :=
  if i < 0 then '-' :: renderNat i.natAbs else renderNat i.natAbs

end PowerInterpreter

namespace PowerInterpreter.Routes

/-- Effective wall-clock timeout computed by the synchronous execute route:
`timeout = min(request.timeout or 30, 60)` (`app/routes/execute.py` line 52).
Python `x or 30` yields `30` when `x` is `None` **or** the falsy integer `0`. -/
def effectiveSyncTimeout (requested : Option Int) : Int :=
  min (match requested with
       | none => 30
       | some t => if t = 0 then 30 else t) 60

end PowerInterpreter.Routes

namespace PowerInterpreter.MemoryGuard

open PowerInterpreter

/-- Observable behaviour of the spawned subprocess, as seen by
`execute_with_memory_limit` after `proc.communicate()` returns:
its exit code, decoded output streams, and whether `asyncio.wait_for`
timed out (in which case the process was killed first). -/
structure SubprocessOutcome where
  returncode : Int
  stdoutRaw : Str
  stderrRaw : Str
  timedOut : Bool
  deriving DecidableEq, Repr

/-- The dict returned by `execute_with_memory_limit`
(`app/engine/memory_guard.py` lines 102-109). -/
structure GuardRecord where
  success : Bool
  stdout : Str
  stderr : Str
  returnCode : Int
  timedOut : Bool
  oomKilled : Bool
  deriving DecidableEq, Repr

/-- Embedding of `app/engine/memory_guard.py` lines 91-109: OOM detection
(`proc.returncode == -9 or "MemoryError" in stderr`), the informational
stderr suffixes, and the returned record. The OOM test runs on the decoded
subprocess stderr, before the suffixes are appended. -/
def memoryGuardRecord (timeout maxGb : Int) (p : SubprocessOutcome) : GuardRecord :=
  let oomKilled := (p.returncode == -9) || containsSeq "MemoryError".data p.stderrRaw
  let stderrA :=
    if p.timedOut then
      p.stderrRaw ++ ("\n[TIMEOUT] Execution exceeded ".data ++ renderInt timeout
        ++ " seconds and was killed.".data)
    else p.stderrRaw
  let stderrB :=
    if oomKilled && !p.timedOut then
      stderrA ++ ("\n[OOM] Process exceeded ".data ++ renderInt maxGb
        ++ " GB memory limit.".data)
    else stderrA
  { success := (p.returncode == 0) && !p.timedOut
    stdout := p.stdoutRaw
    stderr := stderrB
    returnCode := p.returncode
    timedOut := p.timedOut
    oomKilled := oomKilled }

/-- The record returned when the subprocess cannot be launched
(`app/engine/memory_guard.py` lines 111-120). -/
def launchFailureRecord (excMsg : Str) : GuardRecord :=
  { success := false
    stdout := []
    stderr := "Failed to launch sandbox subprocess: ".data ++ excMsg
    returnCode := -1
    timedOut := false
    oomKilled := false }

/-- Which fallible host operations of `execute_with_memory_limit` fail in a
given run.  `mkstempRaises` models `tempfile.mkstemp` (line 62), which sits
**outside** the `try` block; `launchRaises` models
`asyncio.create_subprocess_exec` (line 73), which sits inside it. -/
structure IsoEnv where
  mkstempRaises : Bool
  launchRaises : Bool
  launchMsg : Str
  proc : SubprocessOutcome

/-- Control flow of `execute_with_memory_limit`: `.error` means an exception
escaped to the caller, `.ok` means a structured record was returned. -/
def executeIsolatedControlFlow (timeout maxGb : Int) (env : IsoEnv) :
    Except Str GuardRecord :=
  if env.mkstempRaises then .error "OSError raised by tempfile.mkstemp".data
  else if env.launchRaises then .ok (launchFailureRecord env.launchMsg)
  else .ok (memoryGuardRecord timeout maxGb env.proc)

end PowerInterpreter.MemoryGuard

namespace PowerInterpreter.Config

open PowerInterpreter

/-- `Settings.BLOCKED_BUILTINS` (`app/config.py` lines 122-128). -/
def BLOCKED_BUILTINS : List Str :=
  ["exec".data, "eval".data, "compile".data, "__import__".data,
   "globals".data, "locals".data, "delattr".data,
   "exit".data, "quit".data, "breakpoint".data, "input".data, "open".data]

end PowerInterpreter.Config

namespace PowerInterpreter.Executor

open PowerInterpreter

/-- The builtin names explicitly re-added as "essentials" by
`SandboxExecutor._get_safe_builtins` (`app/engine/executor.py` lines 116-184). -/
def essentialBuiltinNames : List Str :=
  ["True".data, "False".data, "None".data, "print".data, "len".data,
   "range".data, "int".data, "float".data, "str".data, "bool".data,
   "list".data, "dict".data, "tuple".data, "set".data, "type".data,
   "isinstance".data, "issubclass".data, "hasattr".data, "getattr".data,
   "setattr".data, "enumerate".data, "zip".data, "map".data, "filter".data,
   "sorted".data, "reversed".data, "min".data, "max".data, "sum".data,
   "abs".data, "round".data, "any".data, "all".data, "repr".data,
   "format".data, "chr".data, "ord".data, "hex".data, "oct".data,
   "bin".data, "pow".data, "divmod".data, "hash".data, "id".data,
   "dir".data, "vars".data, "iter".data, "next".data, "slice".data,
   "super".data, "property".data, "staticmethod".data, "classmethod".data,
   "object".data, "Exception".data, "ValueError".data, "TypeError".data,
   "KeyError".data, "IndexError".data, "AttributeError".data,
   "RuntimeError".data, "StopIteration".data, "ZeroDivisionError".data,
   "FileNotFoundError".data, "IOError".data, "OSError".data,
   "PermissionError".data, "NotImplementedError".data, "OverflowError".data]

/-- Keys of the dict built by `SandboxExecutor._get_safe_builtins`
(`app/engine/executor.py` lines 93-186): every host-interpreter builtin name
that neither starts with an underscore nor sits in `BLOCKED_BUILTINS`,
plus the explicitly re-added essentials.  `builtinNames` stands for
`dir(builtins_module)` of the host interpreter. -/
def safeBuiltinKeys (builtinNames : List Str) : List Str :=
  builtinNames.filter
    (fun n => !pyStartsWith n "_".data && !Config.BLOCKED_BUILTINS.contains n)
  ++ essentialBuiltinNames

/-- Keys of the `__builtins__` dict actually bound into the sandbox:
`_build_safe_globals` adds the `safe_open` shim under the key `open`
(`app/engine/executor.py` line 235) on top of `_get_safe_builtins`. -/
def boundBuiltinKeys (builtinNames : List Str) : List Str :=
  safeBuiltinKeys builtinNames ++ ["open".data]

/-- Top-level keys of the fresh `sandbox_globals` dict built by
`_build_safe_globals` (`app/engine/executor.py` lines 238-289), with the
deployment's pandas/numpy/dataclasses all importable so that the optional
blocks at lines 277-289 run. -/
def sandboxGlobalBaseKeys : List Str :=
  ["__builtins__".data, "__name__".data, "json".data, "csv".data,
   "math".data, "statistics".data, "Decimal".data, "Fraction".data,
   "datetime".data, "collections".data, "itertools".data, "functools".data,
   "re".data, "io".data, "copy".data, "hashlib".data, "base64".data,
   "Path".data, "Dict".data, "List".data, "Optional".data, "Tuple".data,
   "Set".data, "Any".data, "SANDBOX_DIR".data, "RESULT".data,
   "pd".data, "pandas".data, "np".data, "numpy".data,
   "dataclass".data, "field".data, "asdict".data]

/-- The `skip_vars` set used for the post-execution variable diff
(`app/engine/executor.py` lines 527-539; the identical set appears in
`KernelSession.user_variables`). -/
def skipVars : List Str :=
  ["pd".data, "pandas".data, "np".data, "numpy".data, "json".data,
   "csv".data, "math".data, "statistics".data, "datetime".data,
   "collections".data, "itertools".data, "functools".data, "re".data,
   "io".data, "copy".data, "hashlib".data, "base64".data, "Path".data,
   "dataclass".data, "field".data, "asdict".data, "Dict".data,
   "List".data, "Optional".data, "Tuple".data, "Set".data, "Any".data,
   "SANDBOX_DIR".data, "RESULT".data, "plt".data, "matplotlib".data,
   "sns".data, "seaborn".data, "plotly".data, "px".data, "go".data,
   "scipy".data, "sklearn".data, "statsmodels".data, "sm".data,
   "openpyxl".data, "pdfplumber".data, "tabulate".data,
   "xlsxwriter".data, "Decimal".data, "Fraction".data,
   "__builtins__".data, "__name__".data]

/-- The `sandbox_globals` namespace: keys bound to library objects
(modules, classes, helper handles — the pre-seeded bindings plus anything a
lazy import or an import alias adds), and the integer-valued user variables
that the mini-interpreter below can create. -/
structure SandboxGlobals where
  libKeys : List Str
  userVars : List (Str × Int)
  deriving DecidableEq, Repr

/-- Python `name in sandbox_globals`. -/
def globalsContains (g : SandboxGlobals) (name : Str) : Bool :=
  g.libKeys.contains name || g.userVars.any (fun kv => kv.1 == name)

/-- Dict assignment `sandbox_globals[x] = v` for an integer value. -/
def nsSet (g : SandboxGlobals) (x : Str) (v : Int) : SandboxGlobals :=
  if g.userVars.any (fun kv => kv.1 == x) then
    { g with userVars := g.userVars.map (fun kv => if kv.1 == x then (x, v) else kv) }
  else
    { g with userVars := g.userVars ++ [(x, v)] }

/-- `SandboxExecutor._lazy_import` (`app/engine/executor.py` lines 324-381)
in a deployment where all the listed libraries are installed: for each
recognised name, the list of `sandbox_globals` keys the branch assigns;
`none` for every other name (the function returns `False`). -/
def lazyImportKeys (name : Str) : Option (List Str) :=
  if name = "matplotlib".data ∨ name = "matplotlib.pyplot".data then
    some ["matplotlib".data, "plt".data]
  else if name = "seaborn".data then some ["sns".data, "seaborn".data]
  else if name = "plotly".data ∨ name = "plotly.express".data then
    some ["plotly".data, "px".data, "go".data]
  else if name = "scipy".data ∨ name = "scipy.stats".data then
    some ["scipy".data]
  else if name = "sklearn".data then some ["sklearn".data]
  else if name = "statsmodels".data then
    some ["statsmodels".data, "sm".data]
  else if name = "openpyxl".data then some ["openpyxl".data]
  else if name = "pdfplumber".data then some ["pdfplumber".data]
  else if name = "tabulate".data then some ["tabulate".data]
  else if name = "xlsxwriter".data then some ["xlsxwriter".data]
  else none

/-- One step of `SandboxExecutor._preprocess_code`
(`app/engine/executor.py` lines 383-420): classify a line, rewrite import
statements, and thread the mutated `sandbox_globals`.

The token index `stripped.split()[1]` is total here because the
`startswith('import ')` / `startswith('from ')` guard on the stripped line
forces a second whitespace-separated token to exist (the line was stripped,
so it cannot end in the space of the matched prefix). -/
def preprocessLine (g : SandboxGlobals) (line : Str) : Str × SandboxGlobals :=
  let stripped := pyStrip line
  if pyStartsWith stripped "import ".data || pyStartsWith stripped "from ".data then
    let tok := ((pySplitWs stripped).drop 1).headD []
    let moduleName :=
      if pyStartsWith stripped "import ".data then
        (splitOnChar ',' ((splitOnChar '.' tok).headD [])).headD []
      else
        (splitOnChar '.' tok).headD []
    match lazyImportKeys moduleName with
    | some keys =>
      let gLoaded := { g with libKeys := g.libKeys ++ keys }
      let gAliased :=
        if containsSeq "as ".data stripped then
          let aliasKey := pyStrip ((pySplitOnSeq " as ".data stripped).getLastD [])
          if globalsContains gLoaded moduleName then
            { gLoaded with libKeys := gLoaded.libKeys ++ [aliasKey] }
          else gLoaded
        else gLoaded
      ("# [sandbox] ".data ++ stripped ++ " -> pre-loaded".data, gAliased)
    | none =>
      if globalsContains g moduleName then
        ("# [sandbox] ".data ++ stripped ++ " -> already available".data, g)
      else
        ("# [sandbox] BLOCKED: ".data ++ stripped ++ " (not in allowed list)".data, g)
  else (line, g)

/-- `SandboxExecutor._preprocess_code` over a whole submission: split on
newlines, rewrite each line, thread the namespace.  (The Python function
joins the processed lines back with newlines before `compile`; the
line-based interpreter below consumes the list directly.) -/
def preprocessCode (g : SandboxGlobals) (code : Str) : List Str × SandboxGlobals :=
  (splitOnChar '\n' code).foldl
    (fun (acc : List Str × SandboxGlobals) line =>
      let (processed, g1) := preprocessLine acc.2 line
      (acc.1 ++ [processed], g1))
    ([], g)

/-- Exceptions the mini-interpreter can raise. -/
inductive PyError
  | nameError (name : Str)
  | typeError
  | syntaxError
  deriving DecidableEq, Repr

/-- The apostrophe character used by CPython error messages. -/
def quoteChar : Char := Char.ofNat 39

/-- Python `str(e)` for the exceptions above (`NameError` renders as
`name 'x' is not defined`; the others only need a stable rendering here). -/
def errMessage : PyError → Str
  | .nameError n => "name ".data ++ [quoteChar] ++ n ++ [quoteChar] ++ " is not defined".data
  | .typeError => "unsupported operand type(s)".data
  | .syntaxError => "invalid syntax".data

/-- Parse a non-empty all-digit token as a natural number literal. -/
def parseDecimal (s : Str) : Int :=
  Int.ofNat (s.foldl (fun acc c => acc * 10 + (c.toNat - 48)) 0)

/-- Evaluate an atom of the expression fragment: an integer literal or a
variable name.  Looking up a name bound neither by the user nor by the
pre-seeded namespace raises `NameError`, exactly as CPython `exec` does; a
name bound to a library object is outside the integer fragment and maps to
`typeError` (never reached by the inputs considered here). -/
def evalAtom (g : SandboxGlobals) (a : Str) : Except PyError Int :=
  if a ≠ [] ∧ a.all Char.isDigit then .ok (parseDecimal a)
  else
    match g.userVars.find? (fun kv => kv.1 == a) with
    | some kv => .ok kv.2
    | none =>
      if globalsContains g a then .error .typeError
      else .error (.nameError a)

/-- Evaluate a sum of atoms (`1 + 1`, `x + 2`, a single atom, ...). -/
def evalExpr (g : SandboxGlobals) (e : Str) : Except PyError Int :=
  (pySplitOnSeq " + ".data e).foldlM
    (fun acc a => (evalAtom g (pyStrip a)).map (fun v => acc + v)) 0

/-- Whether a token is an identifier of the fragment. -/
def isIdentToken (x : Str) : Bool :=
  x ≠ [] ∧ x.all (fun c => c.isAlpha ∨ c = '_' ∨ c.isDigit) ∧ ¬(x.headD ' ').isDigit

/-- CPython `exec` semantics restricted to the statement fragment exercised
by the specification's scenarios: blank lines, `#` comments (which is what
`_preprocess_code` turns import statements into), `print(<expr>)`, and
`<ident> = <expr>` over integer sums.  Returns the updated namespace and the
text written to the captured stdout. -/
def execLine (g : SandboxGlobals) (line : Str) : Except PyError (SandboxGlobals × Str) :=
  let stripped := pyStrip line
  if stripped = [] then .ok (g, [])
  else if stripped.headD ' ' = '#' then .ok (g, [])
  else if pyStartsWith stripped "print(".data ∧ stripped.getLastD ' ' = ')' then
    (evalExpr g (pyStrip ((stripped.drop 6).dropLast))).map
      (fun v => (g, renderInt v ++ ['\n']))
  else
    match pySplitOnSeq " = ".data stripped with
    | [lhs, rhs] =>
      let x := pyStrip lhs
      if isIdentToken x then
        (evalExpr g (pyStrip rhs)).map (fun v => (nsSet g x v, []))
      else .error .syntaxError
    | _ => .error .syntaxError

/-- Run the processed lines in order, accumulating captured stdout and
stopping at the first uncaught exception — prints made before the raising
line stay in the capture buffer, as with `redirect_stdout` plus the
`finally` block of `SandboxExecutor.execute`. -/
def runLines : SandboxGlobals → List Str → SandboxGlobals × Str × Option PyError
  | g, [] => (g, [], none)
  | g, l :: rest =>
    match execLine g l with
    | .error e => (g, [], some e)
    | .ok (g1, out) =>
      let (g2, outs, err) := runLines g1 rest
      (g2, out ++ outs, err)

/-- The fields of `ExecutionResult` relevant to the session/persistence and
capability claims (`app/engine/executor.py` lines 45-57). -/
structure ExecutionResult where
  success : Bool
  stdout : Str
  stderr : Str
  errorMessage : Option Str
  varTypes : List (Str × Str)
  deriving DecidableEq, Repr

/-- The post-execution variable diff (`app/engine/executor.py` lines
526-545): every `sandbox_globals` key that neither starts with `_` nor sits
in `skip_vars`, mapped to its type name.  All pre-seeded base keys are
filtered out (each is in `skip_vars` or starts with `_`); import aliases
show up as `module`-typed entries and user variables as `int`-typed ones. -/
def variablesOf (g : SandboxGlobals) : List (Str × Str) :=
  (g.libKeys.filter
      (fun k => !pyStartsWith k "_".data && !skipVars.contains k)).map
    (fun k => (k, "module".data))
  ++ (g.userVars.filter
      (fun kv => !pyStartsWith kv.1 "_".data && !skipVars.contains kv.1)).map
    (fun kv => (kv.1, "int".data))

/-- The fresh namespace `_build_safe_globals` produces: the pre-seeded keys
and no user variables. -/
def freshSandboxGlobals : SandboxGlobals :=
  { libKeys := sandboxGlobalBaseKeys, userVars := [] }

/-- `SandboxExecutor.execute` (`app/engine/executor.py` lines 422-600) for a
submission inside the modelled fragment, in a run where the host-level
operations (directory creation, globals construction) succeed and the
wall-clock deadline is not hit.

The load-bearing structural fact, visible in the type, is that the function
keeps **no state across calls**: line 452 rebuilds `sandbox_globals` from
scratch on every call and `KernelManager.get_or_create` is never invoked
anywhere in `executor.py`, so `sessionId` only ever names the sandbox file
directory.  `contextVars` models the `context` dict merged in at line 462.
On an uncaught exception from the executed code the variable diff is
skipped (it lives in the success branch, lines 522-545) and the exception
text is captured (lines 559-562). -/
def execute (code : Str) (sessionId : Str) (contextVars : List (Str × Int) := []) :
    ExecutionResult :=
  let _ := sessionId
  let g0 := contextVars.foldl (fun g kv => nsSet g kv.1 kv.2) freshSandboxGlobals
  let (processedLines, g1) := preprocessCode g0 code
  let (g2, out, err) := runLines g1 processedLines
  match err with
  | none =>
    { success := true, stdout := out, stderr := [],
      errorMessage := none, varTypes := variablesOf g2 }
  | some e =>
    { success := false, stdout := out, stderr := [],
      errorMessage := some (errMessage e), varTypes := [] }

/-- A file path as handed to the `safe_open` shim: whether it is absolute,
and its components.  Symlink-free path resolution (`Path.resolve`) then
amounts to processing `.` and `..` components. -/
structure FileRequest where
  absolute : Bool
  comps : List Str
  mode : Str
  deriving DecidableEq, Repr

/-- Symlink-free `Path.resolve()`: drop `.` components and let `..` consume
the preceding component (at the root, `..` stays at the root). -/
def resolveDots (comps : List Str) : List Str :=
  comps.foldl
    (fun acc c =>
      if c = ".".data then acc
      else if c = "..".data then acc.dropLast
      else acc ++ [c])
    []

/-- Python `str(Path(...))` for an absolute path given by components. -/
def renderPath (comps : List Str) : Str :=
  comps.foldl (fun acc c => acc ++ '/' :: c) []

/-- The claim's notion of containment: `p` is the root itself or lies below
it, component-wise. -/
def isDescendantOf (p root : List Str) : Bool := root.isPrefixOf p

/-- What `safe_open` reports on success: the resolved path it passes to the
real `open`, and whether it created parent directories first
(`app/engine/executor.py` lines 316-318: `'w' in mode or 'a' in mode`). -/
structure OpenedFile where
  comps : List Str
  parentDirsCreated : Bool
  deriving DecidableEq, Repr

/-- The `safe_open` closure produced by `SandboxExecutor._make_safe_open`
(`app/engine/executor.py` lines 294-322), for symlink-free paths: relative
paths are joined onto the session directory (lines 298-300), both sides are
resolved (lines 304-305), and the containment test is the **string-prefix**
test `str(resolved).startswith(str(session_resolved))` (line 306).
`.error` carries the `PermissionError` message. -/
def safeOpen (sessionDir : List Str) (r : FileRequest) :
    Except Str OpenedFile :=
  let path := if r.absolute then r.comps else sessionDir ++ r.comps
  let resolved := resolveDots path
  let sessionResolved := resolveDots sessionDir
  if pyStartsWith (renderPath resolved) (renderPath sessionResolved) then
    .ok { comps := resolved
          parentDirsCreated := r.mode.contains 'w' || r.mode.contains 'a' }
  else
    .error ("Access denied: Cannot access files outside sandbox. ".data
      ++ "Use relative paths or SANDBOX_DIR.".data)

/-- How the guarded execution itself ends (`app/engine/executor.py`
lines 491-563).  `raisesExc` is a submission raising an `Exception`-derived
error, matched by `except Exception` at line 559.  `raisesBaseExc` is a
submission raising a `BaseException` that is **not** an `Exception` —
`SystemExit`, `KeyboardInterrupt`, `GeneratorExit`, `BaseException` itself,
every one re-added by `_get_safe_builtins` since none starts with `_` or
sits in `BLOCKED_BUILTINS`: the executor-pool worker stores it on the
future, the `await` re-raises it, and it matches none of the
`asyncio.TimeoutError` (547), `MemoryError` (553), `Exception` (559)
handlers, so it escapes `execute` (the `finally` block still runs). -/
inductive ExecOutcomeKind
  | completes
  | timesOut
  | memoryErr
  | raisesExc
  | raisesBaseExc
  deriving DecidableEq, Repr

/-- Whether a `safe_open` call ended in the `PermissionError` branch. -/
def isOpenError : Except Str OpenedFile → Bool
  | .error _ => true
  | .ok _ => false

/-- The file actually opened by a `safe_open` call, if any. -/
def openedFileOf : Except Str OpenedFile → Option OpenedFile
  | .error _ => none
  | .ok f => some f

/-- Which host-level operation outcomes occur during one
`SandboxExecutor.execute` call.  `mkdirRaises` models
`session_dir.mkdir(parents=True, exist_ok=True)` at line 448, which is the
one fallible statement **outside** every `try` block of the function (it
raises e.g. for an unwritable sandbox root or a session id containing a NUL
byte); `buildGlobalsRaises` and `preprocessRaises` model the guarded
regions, and `outcome` how the guarded execution itself ends. -/
structure ExecEnv where
  mkdirRaises : Bool
  buildGlobalsRaises : Bool
  preprocessRaises : Bool
  outcome : ExecOutcomeKind
  deriving DecidableEq, Repr

/-- The structured classifications `execute` can hand back. -/
inductive SyncOutcome
  | okResult
  | initFailed
  | preprocessFailed
  | timeoutFailure
  | memoryExceeded
  | runtimeFailure
  deriving DecidableEq, Repr

/-- Control flow of `SandboxExecutor.execute`: `.error` is an exception
escaping to the caller, `.ok` a structured `ExecutionResult`.  Globals
construction (lines 451-458) and preprocessing (lines 465-472) failures
become structured results; the execution's failures are matched by
`except asyncio.TimeoutError` (547), `except MemoryError` (553) and
`except Exception` (559) — a `BaseException`-only raise matches none of
them and escapes.  The `finally` block's fallible steps are individually
guarded (lines 582-598). -/
def executeControlFlow (env : ExecEnv) : Except Str SyncOutcome :=
  if env.mkdirRaises then .error "OSError raised by session_dir.mkdir".data
  else if env.buildGlobalsRaises then .ok .initFailed
  else if env.preprocessRaises then .ok .preprocessFailed
  else
    match env.outcome with
    | .completes => .ok .okResult
    | .timesOut => .ok .timeoutFailure
    | .memoryErr => .ok .memoryExceeded
    | .raisesExc => .ok .runtimeFailure
    | .raisesBaseExc =>
      .error "BaseException raised by the submission passed except Exception".data

/-- Whether a control-flow result is a structured return (rather than an
exception escaping to the caller). -/
def isStructured {α : Type} : Except Str α → Bool
  | .ok _ => true
  | .error _ => false

/-- The value stored in `ExecutionResult.result`, as `to_dict` sees it:
absent, JSON-serializable (`json.dumps` succeeds; `text` is its textual
form), or not serializable (`reprText` is its `str(...)` form). -/
inductive PyValue
  | pyNone
  | jsonSerializable (text : Str)
  | notSerializable (reprText : Str)
  deriving DecidableEq, Repr

/-- `ExecutionResult._serialize_result` (`app/engine/executor.py` lines
73-82): `None` passes through, a JSON-serializable value is returned
**whole**, and only the non-serializable fallback string is sliced to
`MAX_OUTPUT_SIZE`. -/
def serializeResult (maxOutputSize : Nat) : PyValue → Option Str
  | .pyNone => none
  | .jsonSerializable text => some text
  | .notSerializable reprText => some (pySlice reprText maxOutputSize)

/-- The raw fields of an `ExecutionResult` before `to_dict`. -/
structure RawResultFields where
  success : Bool
  stdout : Str
  stderr : Str
  result : PyValue
  deriving DecidableEq, Repr

/-- The output-bearing fields of the dict built by
`ExecutionResult.to_dict` (`app/engine/executor.py` lines 59-71):
`stdout`/`stderr` are sliced to `settings.MAX_OUTPUT_SIZE` (an
environment-configured value, default 1048576) and `result` goes through
`_serialize_result`. -/
structure ResultDict where
  success : Bool
  stdout : Str
  stderr : Str
  result : Option Str
  deriving DecidableEq, Repr

/-- `ExecutionResult.to_dict`, restricted to the size-relevant fields. -/
def toDict (maxOutputSize : Nat) (r : RawResultFields) : ResultDict :=
  { success := r.success
    stdout := pySlice r.stdout maxOutputSize
    stderr := pySlice r.stderr maxOutputSize
    result := serializeResult maxOutputSize r.result }

end PowerInterpreter.Executor

namespace PowerInterpreter.KernelMgr

open PowerInterpreter

/-- One `KernelSession` (`app/engine/kernel_manager.py` lines 31-44), with
the namespace itself abstracted away: the LRU/capacity claims only depend on
the id, the last-activity stamp and the execution count. -/
structure KernelSession where
  sessionId : Str
  lastActivity : Nat
  executionCount : Nat
  deriving DecidableEq, Repr

/-- The `KernelManager` table (`app/engine/kernel_manager.py` lines 88-107).
`sessions` is kept in Python-dict insertion order; `clock` is a logical
stand-in for `time.time()`, read once per call and strictly increasing
between calls. -/
structure ManagerState where
  sessions : List KernelSession
  maxKernels : Nat
  idleTimeout : Nat
  clock : Nat
  deriving DecidableEq, Repr

/-- `_cleanup_expired` (lines 186-199): drop every session whose idle time
exceeds the idle timeout. -/
def cleanupExpired (now idleTimeout : Nat) (sessions : List KernelSession) :
    List KernelSession :=
  sessions.filter (fun s => now - s.lastActivity ≤ idleTimeout)

/-- The minimum `last_activity` over the table, or `none` when empty. -/
def minActivity : List KernelSession → Option Nat
  | [] => none
  | s :: rest =>
    match minActivity rest with
    | none => some s.lastActivity
    | some m => some (if s.lastActivity ≤ m then s.lastActivity else m)

/-- `_evict_oldest` (lines 201-210): remove the first session, in insertion
order, whose `last_activity` is minimal — exactly what
`min(keys, key=last_activity)` followed by `del` does on a Python dict. -/
def evictOldest (sessions : List KernelSession) : List KernelSession :=
  match minActivity sessions with
  | none => sessions
  | some m => sessions.eraseP (fun s => s.lastActivity == m)

/-- `KernelManager.get_or_create` (lines 109-159): clean up expired
sessions; touch and keep an existing session; otherwise evict the oldest
when at capacity (`len >= max_kernels`) and append a fresh session whose
`touch()` leaves it with the current stamp and execution count 1.  The
whole step runs under the manager's lock, so it is one atomic transition. -/
def getOrCreate (st : ManagerState) (sid : Str) : ManagerState :=
  let cleaned := cleanupExpired st.clock st.idleTimeout st.sessions
  if cleaned.any (fun s => s.sessionId == sid) then
    { st with
      sessions := cleaned.map
        (fun s => if s.sessionId == sid then
            { s with lastActivity := st.clock,
                     executionCount := s.executionCount + 1 }
          else s)
      clock := st.clock + 1 }
  else
    let afterEvict :=
      if st.maxKernels ≤ cleaned.length then evictOldest cleaned else cleaned
    { st with
      sessions := afterEvict ++ [⟨sid, st.clock, 1⟩]
      clock := st.clock + 1 }

/-- A fresh manager (`KernelManager.__init__`) with the given capacity and
idle timeout; the logical clock starts at 1 so that every stored stamp is
positive. -/
def initialState (maxKernels idleTimeout : Nat) : ManagerState :=
  { sessions := [], maxKernels := maxKernels, idleTimeout := idleTimeout,
    clock := 1 }

/-- Run a sequence of `get_or_create` calls from a fresh manager. -/
def run (maxKernels idleTimeout : Nat) (calls : List Str) : ManagerState :=
  calls.foldl getOrCreate (initialState maxKernels idleTimeout)

/-- `KernelManager.reset_session` (lines 161-171): destructively drop the
session; the returned flag says whether it existed. -/
def resetSession (st : ManagerState) (sid : Str) : ManagerState × Bool :=
  if st.sessions.any (fun s => s.sessionId == sid) then
    ({ st with sessions := st.sessions.filter (fun s => !(s.sessionId == sid)) }, true)
  else (st, false)

end PowerInterpreter.KernelMgr

namespace PowerInterpreter.Jobs

open PowerInterpreter

/-- Job lifecycle states (`app/routes/jobs.py` docstrings; persisted as the
strings `pending`/`running`/`completed`/`failed`/`cancelled`/`timeout`). -/
inductive JobStatus
  | pending
  | running
  | completed
  | failed
  | cancelled
  | timedOut
  deriving DecidableEq, Repr

/-- The stored status string for each state. -/
def statusName : JobStatus → Str
  | .pending => "pending".data
  | .running => "running".data
  | .completed => "completed".data
  | .failed => "failed".data
  | .cancelled => "cancelled".data
  | .timedOut => "timeout".data

/-- A stored job record, as the result route consumes it: its status plus
the payload fields it would return for a terminal job. -/
structure JobRecord where
  status : JobStatus
  stdout : Str
  stderr : Str
  result : Option Str
  deriving DecidableEq, Repr

/-- What the HTTP layer hands back: either the job's payload, or an
`HTTPException` with a status code and detail string. -/
inductive RouteReply
  | payload (r : JobRecord)
  | httpError (code : Nat) (detail : Str)
  deriving DecidableEq, Repr

/-- Modelled from the spec: `job_manager.get_job_result` — the job-manager
module itself is not under `src/`, only this caller is.  Per the spec's
storage contract it is a read-only lookup by job id against the persisted
job records, returning the record when the id exists and nothing
otherwise. -/
def getJobResult (store : Str → Option JobRecord) (jobId : Str) :
    Option JobRecord :=
  store jobId

/-- The `GET /jobs/.../result` route handler (`app/routes/jobs.py` lines
83-99): a missing record raises HTTP 404 `Job ... not found`; a record whose
status is `pending` or `running` raises HTTP 202 `Job is still ...` and
returns no payload; otherwise the record is returned. -/
def getJobResultRoute (store : Str → Option JobRecord) (jobId : Str) :
    RouteReply :=
  match getJobResult store jobId with
  | none => .httpError 404 ("Job ".data ++ jobId ++ " not found".data)
  | some r =>
    if r.status = .pending ∨ r.status = .running then
      .httpError 202 ("Job is still ".data ++ statusName r.status
        ++ ". Poll /api/jobs/".data ++ jobId ++ "/status".data)
    else .payload r

/-- A concrete job store holding one pending job, used to instantiate the
route theorems. -/
def sampleJobStore : Str → Option JobRecord := fun j =>
  if j = "j1".data then
    some { status := .pending, stdout := [], stderr := [], result := none }
  else none

end PowerInterpreter.Jobs

namespace PowerInterpreter

open Executor KernelMgr MemoryGuard Jobs

/-! Helper lemmas shared by several of the claim theorems. -/

/-- The executable substring test agrees with list-infix containment. -/
theorem containsSeq_eq_true_iff {needle : Str} :
    ∀ {hay : Str}, containsSeq needle hay = true ↔ needle <:+: hay
  | [] => by
    simp [containsSeq, List.isPrefixOf_iff_prefix, List.prefix_nil, List.infix_nil]
  | x :: xs => by
    simp [containsSeq, List.isPrefixOf_iff_prefix, List.infix_cons_iff,
      @containsSeq_eq_true_iff needle xs]

/-- C1: the spec requires variables bound by one `Execute` call to be visible
to the next call on the same session (`Execute("x = 1 + 1", session="a")`
then `Execute("print(x)", session="a")` must print `2`).  Evaluating the
embedded `SandboxExecutor.execute` at exactly that input shows the second
call raises `NameError` instead: the executor rebuilds `sandbox_globals`
from scratch on every call (`executor.py` line 452) and never invokes
`KernelManager.get_or_create`, so nothing persists.  The final conjunct
shows the same two statements run inside **one** submission do print `2`,
so the failure is the missing cross-call state, not the semantics of the
statements themselves. -/
theorem C1_no_cross_call_persistence :
    (Executor.execute "x = 1 + 1".data "a".data).success = true ∧
    (Executor.execute "x = 1 + 1".data "a".data).varTypes = [("x".data, "int".data)] ∧
    (Executor.execute "print(x)".data "a".data).success = false ∧
    (Executor.execute "print(x)".data "a".data).stdout = [] ∧
    containsSeq "2".data (Executor.execute "print(x)".data "a".data).stdout = false ∧
    (Executor.execute "print(x)".data "a".data).errorMessage =
      some ("name ".data ++ [quoteChar] ++ "x".data ++ [quoteChar] ++ " is not defined".data) ∧
    (Executor.execute "x = 1 + 1\nprint(x)".data "a".data).stdout = "2\n".data := by
  decide

/-- C2 counterexample: the claim says `Execute("import blocked_module", ...)`
returns `success=false` with a `CapabilityViolation` error.  Evaluating the
embedded executor at that exact input yields `success=true` and no error at
all: `_preprocess_code` replaces the blocked import with a comment and
execution proceeds (the `ExecutionResult` type has no error-category field
anywhere). -/
theorem C2_counterexample :
    (Executor.execute "import blocked_module".data "a".data).success = true ∧
    (Executor.execute "import blocked_module".data "a".data).errorMessage = none := by
  decide

/-- C3: the spec requires every resolved path that is not a descendant of
the session root to be rejected.  The shim instead tests
`str(resolved).startswith(str(session_resolved))` (`executor.py` line 306):
for session root `/app/sandbox_data/sess`, the sibling file
`/app/sandbox_data/sessile/secret.txt` — not a descendant — passes the
string-prefix test and is opened.  The last conjunct shows plain `..`
traversal is caught, so the escape is specific to prefix-sharing siblings. -/
theorem C3_prefix_check_admits_sibling_escape :
    (Executor.openedFileOf (Executor.safeOpen
        ["app".data, "sandbox_data".data, "sess".data]
        { absolute := true
          comps := ["app".data, "sandbox_data".data, "sessile".data, "secret.txt".data]
          mode := "r".data }) =
      some { comps := ["app".data, "sandbox_data".data, "sessile".data, "secret.txt".data]
             parentDirsCreated := false }) ∧
    Executor.isDescendantOf
      ["app".data, "sandbox_data".data, "sessile".data, "secret.txt".data]
      ["app".data, "sandbox_data".data, "sess".data] = false ∧
    Executor.isOpenError
      (Executor.safeOpen ["app".data, "sandbox_data".data, "sess".data]
        { absolute := false
          comps := ["..".data, "..".data, "etc".data, "passwd".data]
          mode := "r".data }) = true := by
  decide

/-- C4 counterexample: the claim says no input ever makes either execution
path raise an uncaught exception.  Three escapes exist.  `session_dir.mkdir`
(`executor.py` line 448) and `tempfile.mkstemp` (`memory_guard.py` line 62)
sit outside every `try` block of their functions, so a failure there
(unwritable sandbox root, NUL byte in the session id, unusable `/tmp`)
propagates.  And a submission such as `raise SystemExit()` — `SystemExit`
is re-bound by `_get_safe_builtins` — raises a `BaseException` that is not
an `Exception`, which line 559's `except Exception` does not catch, so it
escapes `execute` on caller input alone. -/
theorem C4_counterexample :
    Executor.isStructured (Executor.executeControlFlow
      { mkdirRaises := true, buildGlobalsRaises := false,
        preprocessRaises := false, outcome := .completes }) = false ∧
    Executor.isStructured (Executor.executeControlFlow
      { mkdirRaises := false, buildGlobalsRaises := false,
        preprocessRaises := false, outcome := .raisesBaseExc }) = false ∧
    Executor.isStructured (MemoryGuard.executeIsolatedControlFlow 300 4
      { mkstempRaises := true, launchRaises := false, launchMsg := [],
        proc := { returncode := 0, stdoutRaw := [], stderrRaw := [],
                  timedOut := false } }) = false := by
  decide

/-- C4 amended: failures in sandbox-globals construction, preprocessing,
timeouts, memory exhaustion, any `Exception`-derived raise from the
submission, and (on the isolated path) a failed subprocess launch are all
returned as structured results; what escapes uncaught is an exception from
creating the session directory, respectively the temporary code file, and a
submission raising a `BaseException` that is not an `Exception`
(`SystemExit`, `KeyboardInterrupt`), which `except Exception` at line 559
does not catch. -/
theorem C4_structured_results_amended :
    (∀ env : Executor.ExecEnv, env.mkdirRaises = false →
      env.outcome ≠ .raisesBaseExc →
      Executor.isStructured (Executor.executeControlFlow env) = true) ∧
    (∀ (t g : Int) (env : MemoryGuard.IsoEnv), env.mkstempRaises = false →
      Executor.isStructured (MemoryGuard.executeIsolatedControlFlow t g env) = true) := by
  constructor
  · rintro ⟨mk, bg, pp, oc⟩ h hb
    simp only at h
    subst h
    cases bg <;> cases pp <;> cases oc <;>
      first
      | rfl
      | exact absurd rfl hb
  · rintro t g ⟨mk, lr, lm, pr⟩ h
    simp only at h
    subst h
    cases lr <;> rfl

/-- C4 witness: both amended guarantees instantiated at concrete
environments. -/
theorem C4_witness :
    Executor.isStructured (Executor.executeControlFlow
      { mkdirRaises := false, buildGlobalsRaises := false,
        preprocessRaises := false, outcome := .timesOut }) = true ∧
    Executor.isStructured (MemoryGuard.executeIsolatedControlFlow 300 4
      { mkstempRaises := false, launchRaises := true, launchMsg := "boom".data,
        proc := { returncode := 0, stdoutRaw := [], stderrRaw := [],
                  timedOut := false } }) = true :=
  ⟨C4_structured_results_amended.1 _ rfl (by decide),
   C4_structured_results_amended.2 300 4 _ rfl⟩

/-- C9 counterexample: the claim's formula `min(requestedTimeout, 60)` gives
`0` for a requested timeout of `0`, but the route computes
`min(request.timeout or 30, 60)` and Python's `or` treats the integer `0`
as falsy, so the effective timeout is `30`. -/
theorem C9_counterexample :
    Routes.effectiveSyncTimeout (some 0) = 30 ∧
    min (0 : Int) 60 = 0 ∧ (30 : Int) ≠ 0 := by
  decide

/-- C9 amended: for a nonzero requested timeout the effective timeout is
`min(requested, 60)`; an omitted or zero requested timeout yields `30`; and
no synchronous execution is ever granted more than `60` seconds. -/
theorem C9_sync_timeout_amended :
    (∀ t : Int, t ≠ 0 → Routes.effectiveSyncTimeout (some t) = min t 60) ∧
    Routes.effectiveSyncTimeout none = 30 ∧
    Routes.effectiveSyncTimeout (some 0) = 30 ∧
    (∀ o : Option Int, Routes.effectiveSyncTimeout o ≤ 60) := by
  refine ⟨?_, by decide, by decide, ?_⟩
  · intro t ht
    simp [Routes.effectiveSyncTimeout, ht]
  · intro o
    exact min_le_right _ _

/-- C9 witness: the amended rule applied at a requested timeout of 100. -/
theorem C9_witness :
    Routes.effectiveSyncTimeout (some 100) = min 100 60 :=
  C9_sync_timeout_amended.1 100 (by decide)

/-- C10: `executeIsolated` reports `oom_killed` exactly when the subprocess
exit code is `-9` or its (pre-append) stderr contains `MemoryError`, and
reports `success` exactly when the exit code is `0` without a timeout;
consequently a subprocess that exits `0` while printing `MemoryError` to
stderr yields `success=true` and `oom_killed=true` simultaneously. -/
theorem C10_oom_detection :
    ∀ (t g : Int) (p : MemoryGuard.SubprocessOutcome),
    ((MemoryGuard.memoryGuardRecord t g p).oomKilled = true ↔
      (p.returncode = -9 ∨ "MemoryError".data <:+: p.stderrRaw)) ∧
    ((MemoryGuard.memoryGuardRecord t g p).success = true ↔
      (p.returncode = 0 ∧ p.timedOut = false)) ∧
    (MemoryGuard.memoryGuardRecord 300 4
      { returncode := 0, stdoutRaw := [],
        stderrRaw := "MemoryError: allocation failed".data,
        timedOut := false }).success = true ∧
    (MemoryGuard.memoryGuardRecord 300 4
      { returncode := 0, stdoutRaw := [],
        stderrRaw := "MemoryError: allocation failed".data,
        timedOut := false }).oomKilled = true := by
  intro t g p
  refine ⟨?_, ?_, by decide, by decide⟩
  · show ((p.returncode == -9) || containsSeq "MemoryError".data p.stderrRaw) = true ↔ _
    rw [Bool.or_eq_true, beq_iff_eq, containsSeq_eq_true_iff]
  · show ((p.returncode == 0) && !p.timedOut) = true ↔ _
    rw [Bool.and_eq_true, beq_iff_eq, Bool.not_eq_true']

/-- C5 counterexample: the claim says the serialized result value is capped
to `MAX_OUTPUT_SIZE`.  With the configured maximum set to 4, a
JSON-serializable result of length 9 is returned whole by `to_dict`
(`executor.py` line 80 returns `self.result` uncapped when `json.dumps`
succeeds). -/
theorem C5_counterexample :
    (Executor.toDict 4
        { success := true, stdout := [], stderr := [],
          result := .jsonSerializable "[1, 2, 3]".data }).result =
      some "[1, 2, 3]".data ∧
    ¬("[1, 2, 3]".data.length ≤ 4) := by
  decide

/-- C5 amended: `stdout` and `stderr` are always capped to the configured
maximum, and the `result` field is capped only on the non-serializable
fallback branch; a JSON-serializable result is returned whole. -/
theorem C5_output_caps_amended :
    ∀ (maxOut : Nat) (r : Executor.RawResultFields),
    (Executor.toDict maxOut r).stdout.length ≤ maxOut ∧
    (Executor.toDict maxOut r).stderr.length ≤ maxOut ∧
    (∀ reprText, r.result = .notSerializable reprText →
      ∀ s, (Executor.toDict maxOut r).result = some s → s.length ≤ maxOut) ∧
    (∀ text, r.result = .jsonSerializable text →
      (Executor.toDict maxOut r).result = some text) := by
  intro maxOut r
  refine ⟨?_, ?_, ?_, ?_⟩
  · simp only [Executor.toDict, pySlice, List.length_take]
    exact min_le_left _ _
  · simp only [Executor.toDict, pySlice, List.length_take]
    exact min_le_left _ _
  · intro reprText hrt s hs
    simp only [Executor.toDict, Executor.serializeResult, hrt, pySlice,
      Option.some.injEq] at hs
    subst hs
    simp only [List.length_take]
    exact min_le_left _ _
  · intro text ht
    simp only [Executor.toDict, Executor.serializeResult, ht]

/-- C5 witness: the amended caps applied at a concrete configuration. -/
theorem C5_witness :
    ((Executor.toDict 4
        { success := false, stdout := "abcdefgh".data, stderr := [],
          result := .notSerializable "0123456789".data }).stdout.length ≤ 4) ∧
    (("0123456789".data.take 4).length ≤ 4) :=
  ⟨(C5_output_caps_amended 4
      { success := false, stdout := "abcdefgh".data, stderr := [],
        result := .notSerializable "0123456789".data }).1,
   (C5_output_caps_amended 4
      { success := false, stdout := "abcdefgh".data, stderr := [],
        result := .notSerializable "0123456789".data }).2.2.1
     "0123456789".data rfl ("0123456789".data.take 4) rfl⟩

/-- C6: each denied builtin operation named by the claim — `eval`, `exec`,
`compile`, `__import__`, `globals`, `locals`, `input` — is absent from the
`__builtins__` dict bound into the sandbox (`_get_safe_builtins` filters it
out of the host builtin list and the explicit essentials never re-add it)
and from the top-level keys of `sandbox_globals`, for every possible
host-interpreter builtin list.  (The source additionally blocks `open` but
re-binds a wrapped `safe_open` under that name; `open` is not in the
claim's set.) -/
theorem C6_denied_builtins_absent :
    ∀ (builtinNames : List Str) (n : Str),
    n ∈ ["eval".data, "exec".data, "compile".data, "__import__".data,
         "globals".data, "locals".data, "input".data] →
    n ∉ Executor.boundBuiltinKeys builtinNames ∧
    n ∉ Executor.sandboxGlobalBaseKeys := by
  intro bns n hn
  simp only [List.mem_cons, List.not_mem_nil, or_false] at hn
  rcases hn with rfl | rfl | rfl | rfl | rfl | rfl | rfl
  all_goals
    refine ⟨fun hmem => ?_, by decide⟩
  all_goals
    simp only [Executor.boundBuiltinKeys, Executor.safeBuiltinKeys] at hmem
  all_goals
    rcases List.mem_append.mp hmem with h1 | h2
  all_goals
    first
    | exact absurd h2 (by decide)
    | (rcases List.mem_append.mp h1 with hf | hess <;>
        first
        | exact absurd (List.mem_filter.mp hf).2 (by decide)
        | exact absurd hess (by decide))

/-- C6 witness: `eval` stays unbound even when the host interpreter's
builtin list offers it. -/
theorem C6_witness :
    "eval".data ∉ Executor.boundBuiltinKeys ["eval".data, "abs".data] ∧
    "eval".data ∉ Executor.sandboxGlobalBaseKeys :=
  C6_denied_builtins_absent ["eval".data, "abs".data] "eval".data (by decide)

/-- C8: fetching a job's result while the job is non-terminal signals HTTP
202 `Job is still pending/running` with no payload, distinct from the HTTP
404 `not found` signal used when no record with that id exists; terminal
jobs return their record.  The store lookup is the spec-modelled
`job_manager.get_job_result`. -/
theorem C8_result_not_ready_distinct :
    ∀ (store : Str → Option Jobs.JobRecord) (jobId : Str),
    (store jobId = none →
      Jobs.getJobResultRoute store jobId =
        .httpError 404 ("Job ".data ++ jobId ++ " not found".data)) ∧
    (∀ r, store jobId = some r → (r.status = .pending ∨ r.status = .running) →
      Jobs.getJobResultRoute store jobId =
        .httpError 202 ("Job is still ".data ++ Jobs.statusName r.status
          ++ ". Poll /api/jobs/".data ++ jobId ++ "/status".data) ∧
      ∀ r2, Jobs.getJobResultRoute store jobId ≠ .payload r2) ∧
    (∀ r, store jobId = some r →
      r.status ≠ .pending → r.status ≠ .running →
      Jobs.getJobResultRoute store jobId = .payload r) ∧
    (∀ d1 d2 : Str,
      (Jobs.RouteReply.httpError 404 d1) ≠ (Jobs.RouteReply.httpError 202 d2)) := by
  intro store jid
  refine ⟨?_, ?_, ?_, ?_⟩
  · intro h
    simp [Jobs.getJobResultRoute, Jobs.getJobResult, h]
  · intro r h hs
    constructor
    · simp only [Jobs.getJobResultRoute, Jobs.getJobResult, h]
      rw [if_pos hs]
    · intro r2
      simp only [Jobs.getJobResultRoute, Jobs.getJobResult, h]
      rw [if_pos hs]
      simp
  · intro r h h1 h2
    have hns : ¬(r.status = .pending ∨ r.status = .running) := by tauto
    simp only [Jobs.getJobResultRoute, Jobs.getJobResult, h]
    rw [if_neg hns]
  · intro d1 d2 h
    simp at h

/-- C8 witness: the route applied to a store holding one pending job:
polling `j1` signals 202, polling an unknown id signals 404. -/
theorem C8_witness :
    Jobs.getJobResultRoute Jobs.sampleJobStore "j1".data =
      .httpError 202 ("Job is still ".data ++ "pending".data
        ++ ". Poll /api/jobs/".data ++ "j1".data ++ "/status".data) ∧
    Jobs.getJobResultRoute Jobs.sampleJobStore "zz".data =
      .httpError 404 ("Job ".data ++ "zz".data ++ " not found".data) :=
  ⟨((C8_result_not_ready_distinct Jobs.sampleJobStore "j1".data).2.1
      { status := .pending, stdout := [], stderr := [], result := none }
      rfl (Or.inl rfl)).1,
   (C8_result_not_ready_distinct Jobs.sampleJobStore "zz".data).1 rfl⟩


/-- Every non-empty session table has a minimal `last_activity`, attained by
a member which bounds all others from below. -/
theorem minActivity_spec :
    ∀ {l : List KernelMgr.KernelSession}, l ≠ [] →
    ∃ m, KernelMgr.minActivity l = some m ∧
      (∃ s ∈ l, s.lastActivity = m) ∧ ∀ s ∈ l, m ≤ s.lastActivity := by
  intro l
  induction l with
  | nil => intro h; exact absurd rfl h
  | cons a t ih =>
    intro _
    by_cases ht : t = []
    · subst ht
      exact ⟨a.lastActivity, by simp [KernelMgr.minActivity],
        ⟨a, by simp, rfl⟩, by simp⟩
    · obtain ⟨m, hm, ⟨s, hs, hsa⟩, hmin⟩ := ih ht
      have hcons : KernelMgr.minActivity (a :: t) =
          some (if a.lastActivity ≤ m then a.lastActivity else m) := by
        have hdef : KernelMgr.minActivity (a :: t) =
            match KernelMgr.minActivity t with
            | none => some a.lastActivity
            | some m0 => some (if a.lastActivity ≤ m0 then a.lastActivity else m0) := rfl
        rw [hdef, hm]
      rcases Nat.le_total a.lastActivity m with hle | hle
      · have hminv : (if a.lastActivity ≤ m then a.lastActivity else m) = a.lastActivity := by
          split <;> omega
        rw [hminv] at hcons
        refine ⟨a.lastActivity, hcons, ⟨a, List.mem_cons_self _ _, rfl⟩, ?_⟩
        intro s2 hs2
        rcases List.mem_cons.mp hs2 with rfl | hmem
        · exact le_refl _
        · exact le_trans hle (hmin s2 hmem)
      · have hminv : (if a.lastActivity ≤ m then a.lastActivity else m) = m := by
          split <;> omega
        rw [hminv] at hcons
        refine ⟨m, hcons, ⟨s, List.mem_cons_of_mem _ hs, hsa⟩, ?_⟩
        intro s2 hs2
        rcases List.mem_cons.mp hs2 with rfl | hmem
        · exact hle
        · exact hmin s2 hmem

/-- Erasing the first match of a predicate that some member satisfies
shortens the list by exactly one. -/
theorem length_eraseP_mem {α : Type} {p : α → Bool} :
    ∀ {l : List α}, (∃ x ∈ l, p x = true) →
    (l.eraseP p).length + 1 = l.length := by
  intro l
  induction l with
  | nil => intro h; simp at h
  | cons a t ih =>
    intro h
    by_cases hpa : p a = true
    · simp [List.eraseP_cons, hpa]
    · have hpa' : p a = false := by
        cases hq : p a
        · rfl
        · exact absurd hq hpa
      obtain ⟨x, hx, hpx⟩ := h
      rcases List.mem_cons.mp hx with rfl | hxt
      · exact absurd hpx hpa
      · have := ih ⟨x, hxt, hpx⟩
        simp [List.eraseP_cons, hpa']
        omega

/-- Evicting from a non-empty table removes exactly one session. -/
theorem evictOldest_length {l : List KernelMgr.KernelSession} (h : l ≠ []) :
    (KernelMgr.evictOldest l).length + 1 = l.length := by
  obtain ⟨m, hm, ⟨s, hs, hsa⟩, _⟩ := minActivity_spec h
  simp only [KernelMgr.evictOldest, hm]
  exact length_eraseP_mem ⟨s, hs, by simp [hsa]⟩

/-- When the member attaining the minimum is unique (pairwise-distinct
activity stamps), `eraseP` removes it and exactly it. -/
theorem eraseP_min_mem :
    ∀ {l : List KernelMgr.KernelSession} {v : KernelMgr.KernelSession} {m : Nat},
    v ∈ l → v.lastActivity = m →
    (l.map (fun s => s.lastActivity)).Nodup →
    v ∉ l.eraseP (fun s => s.lastActivity == m) ∧
    (∀ s ∈ l, s ≠ v → s ∈ l.eraseP (fun s => s.lastActivity == m)) := by
  intro l
  induction l with
  | nil => intro v m hv; exact absurd hv (List.not_mem_nil v)
  | cons a t ih =>
    intro v m hv hvm hnd
    obtain ⟨hanot, hndt⟩ := List.nodup_cons.mp hnd
    by_cases hav : a = v
    · subst hav
      have hpa : (a.lastActivity == m) = true := by simp [hvm]
      constructor
      · simp only [List.eraseP_cons, hpa, cond_true]
        intro hvt
        exact hanot (List.mem_map.mpr ⟨a, hvt, rfl⟩)
      · intro s hs hsv
        simp only [List.eraseP_cons, hpa, cond_true]
        rcases List.mem_cons.mp hs with rfl | hst
        · exact absurd rfl hsv
        · exact hst
    · have hvt : v ∈ t := by
        rcases List.mem_cons.mp hv with rfl | h
        · exact absurd rfl hav
        · exact h
      have hpa : (a.lastActivity == m) = false := by
        cases hq : a.lastActivity == m
        · rfl
        · exfalso
          have heq : a.lastActivity = m := beq_iff_eq.mp hq
          rw [← hvm] at heq
          refine hanot ?_
          show a.lastActivity ∈ List.map (fun s => s.lastActivity) t
          rw [heq]
          exact List.mem_map.mpr ⟨v, hvt, rfl⟩
      obtain ⟨ih1, ih2⟩ := ih hvt hvm hndt
      constructor
      · simp only [List.eraseP_cons, hpa, cond_false]
        intro hmem
        rcases List.mem_cons.mp hmem with rfl | h
        · exact hav rfl
        · exact ih1 h
      · intro s hs hsv
        simp only [List.eraseP_cons, hpa, cond_false]
        rcases List.mem_cons.mp hs with rfl | hst
        · exact List.mem_cons_self _ _
        · exact List.mem_cons_of_mem _ (ih2 s hst hsv)

/-- `get_or_create` never changes the configured capacity. -/
theorem getOrCreate_maxKernels (st : KernelMgr.ManagerState) (sid : Str) :
    (KernelMgr.getOrCreate st sid).maxKernels = st.maxKernels := by
  simp only [KernelMgr.getOrCreate]
  split
  · rfl
  · rfl

/-- One `get_or_create` step preserves the capacity bound. -/
theorem getOrCreate_length_le {st : KernelMgr.ManagerState}
    (h1 : st.sessions.length ≤ st.maxKernels) (h2 : 1 ≤ st.maxKernels)
    (sid : Str) :
    (KernelMgr.getOrCreate st sid).sessions.length ≤ st.maxKernels := by
  have hc : (KernelMgr.cleanupExpired st.clock st.idleTimeout st.sessions).length
      ≤ st.sessions.length := List.length_filter_le _ _
  simp only [KernelMgr.getOrCreate]
  by_cases hA : (KernelMgr.cleanupExpired st.clock st.idleTimeout st.sessions).any
      (fun s => s.sessionId == sid)
  · rw [if_pos hA]
    simpa using le_trans hc h1
  · rw [if_neg hA]
    by_cases hcap : st.maxKernels ≤
        (KernelMgr.cleanupExpired st.clock st.idleTimeout st.sessions).length
    · rw [if_pos hcap]
      have hne : KernelMgr.cleanupExpired st.clock st.idleTimeout st.sessions ≠ [] := by
        intro h
        rw [h] at hcap
        simp at hcap
        omega
      have := evictOldest_length hne
      simp only [List.length_append, List.length_cons, List.length_nil]
      omega
    · rw [if_neg hcap]
      simp only [List.length_append, List.length_cons, List.length_nil]
      omega

/-- Any run of `get_or_create` calls preserves the capacity bound. -/
theorem foldl_getOrCreate_length :
    ∀ (calls : List Str) (st : KernelMgr.ManagerState),
    st.sessions.length ≤ st.maxKernels → 1 ≤ st.maxKernels →
    (calls.foldl KernelMgr.getOrCreate st).sessions.length ≤ st.maxKernels := by
  intro calls
  induction calls with
  | nil => intro st h1 _; simpa using h1
  | cons c cs ih =>
    intro st h1 h2
    have hm := getOrCreate_maxKernels st c
    have h1' : (KernelMgr.getOrCreate st c).sessions.length
        ≤ (KernelMgr.getOrCreate st c).maxKernels := by
      rw [hm]; exact getOrCreate_length_le h1 h2 c
    have h2' : 1 ≤ (KernelMgr.getOrCreate st c).maxKernels := by
      rw [hm]; exact h2
    have := ih (KernelMgr.getOrCreate st c) h1' h2'
    rw [hm] at this
    simpa using this

/-- C7 counterexample: the claim quantifies over every capacity `N`, but a
table of capacity `0` holds one resident session after a single
`get_or_create`: with the table empty, `_evict_oldest` removes nothing and
the new session is inserted, exceeding the capacity. -/
theorem C7_counterexample :
    (KernelMgr.run 0 1000 ["a".data]).sessions.length = 1 ∧
    ¬((KernelMgr.run 0 1000 ["a".data]).sessions.length ≤ 0) := by
  decide

/-- C7 amended: for every capacity `N ≥ 1`, (i) any sequence of
`get_or_create` calls from a fresh manager leaves at most `N` resident
sessions; (ii) from any table at capacity `N` with pairwise-distinct
activity stamps, no expired session, and a fresh session id, the next
`get_or_create` keeps exactly `N` residents by evicting precisely one
session — one attaining the minimal `last_activity` (the least recently
touched) — while every other resident survives and the new session is
inserted. -/
theorem C7_lru_capacity_amended :
    (∀ (maxK idleT : Nat) (calls : List Str), 1 ≤ maxK →
      (KernelMgr.run maxK idleT calls).sessions.length ≤ maxK) ∧
    (∀ (st : KernelMgr.ManagerState) (sid : Str),
      st.sessions.length = st.maxKernels →
      1 ≤ st.maxKernels →
      (∀ s ∈ st.sessions, st.clock - s.lastActivity ≤ st.idleTimeout) →
      (∀ s ∈ st.sessions, s.sessionId ≠ sid) →
      (st.sessions.map (fun s => s.lastActivity)).Nodup →
      ∃ victim, victim ∈ st.sessions ∧
        (∀ s ∈ st.sessions, victim.lastActivity ≤ s.lastActivity) ∧
        (KernelMgr.getOrCreate st sid).sessions.length = st.maxKernels ∧
        victim ∉ (KernelMgr.getOrCreate st sid).sessions ∧
        (∀ s ∈ st.sessions, s ≠ victim →
          s ∈ (KernelMgr.getOrCreate st sid).sessions) ∧
        (⟨sid, st.clock, 1⟩ : KernelMgr.KernelSession) ∈
          (KernelMgr.getOrCreate st sid).sessions) := by
  constructor
  · intro maxK idleT calls hpos
    exact foldl_getOrCreate_length calls (KernelMgr.initialState maxK idleT)
      (by simp [KernelMgr.initialState]) hpos
  · intro st sid hlen hpos hlive hfresh hnd
    have hclean : KernelMgr.cleanupExpired st.clock st.idleTimeout st.sessions
        = st.sessions := by
      apply List.filter_eq_self.mpr
      intro s hs
      exact decide_eq_true (hlive s hs)
    have hany : (st.sessions.any (fun s => s.sessionId == sid)) = false := by
      apply List.any_eq_false.mpr
      intro s hs h
      exact hfresh s hs (beq_iff_eq.mp h)
    have hres : (KernelMgr.getOrCreate st sid).sessions =
        KernelMgr.evictOldest st.sessions ++ [⟨sid, st.clock, 1⟩] := by
      simp only [KernelMgr.getOrCreate, hclean, hany]
      rw [if_neg Bool.false_ne_true]
      rw [if_pos (le_of_eq hlen.symm)]
    have hne : st.sessions ≠ [] := by
      intro h
      rw [h] at hlen
      simp at hlen
      omega
    obtain ⟨m, hm, ⟨v0, hv0, hv0a⟩, hminp⟩ := minActivity_spec hne
    obtain ⟨hnotin, hsurv⟩ := eraseP_min_mem hv0 hv0a hnd
    have hevict : KernelMgr.evictOldest st.sessions =
        st.sessions.eraseP (fun s => s.lastActivity == m) := by
      simp only [KernelMgr.evictOldest, hm]
    refine ⟨v0, hv0, ?_, ?_, ?_, ?_, ?_⟩
    · intro s hs
      rw [hv0a]
      exact hminp s hs
    · rw [hres, hevict, List.length_append]
      have h1 := length_eraseP_mem (l := st.sessions)
        (p := fun s => s.lastActivity == m) ⟨v0, hv0, by simp [hv0a]⟩
      simp only [List.length_cons, List.length_nil]
      omega
    · rw [hres, hevict]
      intro hmem
      rcases List.mem_append.mp hmem with h1 | h2
      · exact hnotin h1
      · have hveq : v0 = ⟨sid, st.clock, 1⟩ := by simpa using h2
        have hvid : v0.sessionId = sid := by rw [hveq]
        exact hfresh v0 hv0 hvid
    · intro s hs hsv
      rw [hres, hevict]
      exact List.mem_append_left _ (hsurv s hs hsv)
    · rw [hres]
      exact List.mem_append_right _ (List.mem_cons_self _ _)

/-- C7 witness: both amended statements instantiated on a capacity-2 table:
three distinct sessions leave two residents, and the third insertion into
the full table evicts exactly the least recently touched session. -/
theorem C7_witness :
    ((KernelMgr.run 2 100 ["a".data, "b".data, "c".data]).sessions.length ≤ 2) ∧
    (∃ victim, victim ∈ (KernelMgr.run 2 100 ["a".data, "b".data]).sessions ∧
      (∀ s ∈ (KernelMgr.run 2 100 ["a".data, "b".data]).sessions,
        victim.lastActivity ≤ s.lastActivity) ∧
      (KernelMgr.getOrCreate (KernelMgr.run 2 100 ["a".data, "b".data])
          "c".data).sessions.length =
        (KernelMgr.run 2 100 ["a".data, "b".data]).maxKernels ∧
      victim ∉ (KernelMgr.getOrCreate (KernelMgr.run 2 100 ["a".data, "b".data])
          "c".data).sessions ∧
      (∀ s ∈ (KernelMgr.run 2 100 ["a".data, "b".data]).sessions, s ≠ victim →
        s ∈ (KernelMgr.getOrCreate (KernelMgr.run 2 100 ["a".data, "b".data])
          "c".data).sessions) ∧
      (⟨"c".data, (KernelMgr.run 2 100 ["a".data, "b".data]).clock, 1⟩ :
          KernelMgr.KernelSession) ∈
        (KernelMgr.getOrCreate (KernelMgr.run 2 100 ["a".data, "b".data])
          "c".data).sessions) :=
  ⟨C7_lru_capacity_amended.1 2 100 ["a".data, "b".data, "c".data] (by decide),
   C7_lru_capacity_amended.2 (KernelMgr.run 2 100 ["a".data, "b".data]) "c".data
     (by decide) (by decide) (by decide) (by decide) (by decide)⟩


/-- Splitting on a predicate no character satisfies yields one chunk. -/
theorem splitOnP_eq_single {p : Char → Bool} :
    ∀ {s : Str}, (∀ c ∈ s, p c = false) → splitOnP p s = [s] := by
  intro s
  induction s with
  | nil => intro _; rfl
  | cons a t ih =>
    intro h
    have ha : p a = false := h a (List.mem_cons_self _ _)
    have ht := ih (fun c hc => h c (List.mem_cons_of_mem _ hc))
    simp [splitOnP, ha, ht]

/-- Splitting on a character the string does not contain yields one chunk. -/
theorem splitOnChar_eq_single {c : Char} :
    ∀ {s : Str}, (∀ a ∈ s, a ≠ c) → splitOnChar c s = [s] := by
  intro s
  induction s with
  | nil => intro _; rfl
  | cons a t ih =>
    intro h
    have ha : a ≠ c := h a (List.mem_cons_self _ _)
    have ht := ih (fun x hx => h x (List.mem_cons_of_mem _ hx))
    simp [splitOnChar, ha, ht]

/-- Right-stripping a string with a non-whitespace last character is the
identity. -/
theorem pyRStrip_concat {t : Str} {c : Char} (hc : isPySpace c = false) :
    pyRStrip (t ++ [c]) = t ++ [c] := by
  simp [pyRStrip, List.dropWhile_cons, hc]

/-- Stripping a string with non-whitespace first and last characters is the
identity. -/
theorem pyStrip_of_edges {a : Char} {mid : Str} {c : Char}
    (ha : isPySpace a = false) (hc : isPySpace c = false) :
    pyStrip (a :: (mid ++ [c])) = a :: (mid ++ [c]) := by
  have h1 : (a :: (mid ++ [c])) = (a :: mid) ++ [c] := by simp
  rw [pyStrip, List.dropWhile_cons]
  rw [if_neg (by simp [ha])]
  rw [h1]
  exact pyRStrip_concat hc

/-- An identifier character (alphabetic or underscore) is not whitespace
and is none of the separator characters the import rewriter splits on. -/
theorem ident_char_facts {c : Char} (h : c.isAlpha = true ∨ c = '_') :
    isPySpace c = false ∧ c ≠ '.' ∧ c ≠ ',' ∧ c ≠ '\n' := by
  rcases h with h | rfl
  · refine ⟨?_, ?_, ?_, ?_⟩
    · cases hq : isPySpace c
      · rfl
      · exfalso
        have := of_decide_eq_true hq
        rcases this with h1 | h1 | h1 | h1 <;> rw [h1] at h <;> simp at h
    · intro h1; rw [h1] at h; simp at h
    · intro h1; rw [h1] at h; simp at h
    · intro h1; rw [h1] at h; simp at h
  · exact ⟨rfl, by decide, by decide, by decide⟩

/-- Python `"import m".split()` for a non-empty separator-free module token:
exactly the two tokens `import` and `m`. -/
theorem pySplitWs_import {m : Str} (hne : m ≠ [])
    (hws : ∀ c ∈ m, isPySpace c = false) :
    pySplitWs ("import ".data ++ m) = ["import".data, m] := by
  have hsingle : splitOnP isPySpace m = [m] := splitOnP_eq_single hws
  have h1 : splitOnP isPySpace
      ('i' :: 'm' :: 'p' :: 'o' :: 'r' :: 't' :: ' ' :: m) = ["import".data, m] := by
    simp +decide [splitOnP, hsingle]
  rw [pySplitWs,
    show "import ".data ++ m = 'i' :: 'm' :: 'p' :: 'o' :: 'r' :: 't' :: ' ' :: m from rfl,
    h1]
  simp +decide [hne]

/-- `_preprocess_code` on a single import of a module outside the allow-list
and not already bound: the line is replaced by the `BLOCKED` comment and the
namespace is left untouched. -/
theorem preprocessLine_blocked {m1 : Str} {cl : Char}
    (hid : ∀ c ∈ m1 ++ [cl], c.isAlpha = true ∨ c = '_')
    (hlazy : Executor.lazyImportKeys (m1 ++ [cl]) = none)
    {g : Executor.SandboxGlobals}
    (hglob : Executor.globalsContains g (m1 ++ [cl]) = false) :
    Executor.preprocessLine g ("import ".data ++ (m1 ++ [cl])) =
      ("# [sandbox] BLOCKED: ".data ++ ("import ".data ++ (m1 ++ [cl]))
        ++ " (not in allowed list)".data, g) := by
  have hws : ∀ c ∈ m1 ++ [cl], isPySpace c = false :=
    fun c hc => (ident_char_facts (hid c hc)).1
  have hdot : ∀ c ∈ m1 ++ [cl], c ≠ '.' :=
    fun c hc => (ident_char_facts (hid c hc)).2.1
  have hcomma : ∀ c ∈ m1 ++ [cl], c ≠ ',' :=
    fun c hc => (ident_char_facts (hid c hc)).2.2.1
  have hcl : isPySpace cl = false := hws cl (by simp)
  have hstrip : pyStrip ("import ".data ++ (m1 ++ [cl]))
      = "import ".data ++ (m1 ++ [cl]) := by
    have hshape : "import ".data ++ (m1 ++ [cl])
        = 'i' :: (("mport ".data ++ m1) ++ [cl]) := by
      simp
    rw [hshape]
    exact pyStrip_of_edges (by decide) hcl
  have hpref : pyStartsWith ("import ".data ++ (m1 ++ [cl])) "import ".data = true := by
    rw [pyStartsWith]
    exact List.isPrefixOf_iff_prefix.mpr (List.prefix_append _ _)
  have hsplit := pySplitWs_import (m := m1 ++ [cl]) (by simp) hws
  have hstrip2 : pyStrip ('i' :: 'm' :: 'p' :: 'o' :: 'r' :: 't' :: ' ' :: (m1 ++ [cl]))
      = 'i' :: 'm' :: 'p' :: 'o' :: 'r' :: 't' :: ' ' :: (m1 ++ [cl]) := hstrip
  have hpref2 : pyStartsWith ('i' :: 'm' :: 'p' :: 'o' :: 'r' :: 't' :: ' ' :: (m1 ++ [cl]))
      ['i', 'm', 'p', 'o', 'r', 't', ' '] = true := hpref
  have hsplit2 : pySplitWs ('i' :: 'm' :: 'p' :: 'o' :: 'r' :: 't' :: ' ' :: (m1 ++ [cl]))
      = [['i', 'm', 'p', 'o', 'r', 't'], m1 ++ [cl]] := hsplit
  simp +decide [Executor.preprocessLine, hstrip2, hpref2, hsplit2,
    splitOnChar_eq_single hdot, splitOnChar_eq_single hcomma, hlazy, hglob]

/-- `_preprocess_code` on the whole one-line submission `import <module>`. -/
theorem preprocessCode_blocked {m1 : Str} {cl : Char}
    (hid : ∀ c ∈ m1 ++ [cl], c.isAlpha = true ∨ c = '_')
    (hlazy : Executor.lazyImportKeys (m1 ++ [cl]) = none)
    {g : Executor.SandboxGlobals}
    (hglob : Executor.globalsContains g (m1 ++ [cl]) = false) :
    Executor.preprocessCode g ("import ".data ++ (m1 ++ [cl])) =
      (["# [sandbox] BLOCKED: ".data ++ ("import ".data ++ (m1 ++ [cl]))
        ++ " (not in allowed list)".data], g) := by
  have hnl : splitOnChar '\n' ("import ".data ++ (m1 ++ [cl]))
      = ["import ".data ++ (m1 ++ [cl])] := by
    apply splitOnChar_eq_single
    intro a ha
    rcases List.mem_append.mp ha with h | h
    · have hall : ∀ a ∈ "import ".data, a ≠ '\n' := by decide
      exact hall a h
    · exact (ident_char_facts (hid a h)).2.2.2
  have hline := preprocessLine_blocked hid hlazy hglob
  simp only [Executor.preprocessCode, hnl, List.foldl_cons, List.foldl_nil, hline,
    List.nil_append]

/-- CPython skips a comment line: the namespace and stdout are untouched. -/
theorem execLine_blocked_comment {m1 : Str} {cl : Char}
    {g : Executor.SandboxGlobals} :
    Executor.execLine g ("# [sandbox] BLOCKED: ".data
        ++ ("import ".data ++ (m1 ++ [cl])) ++ " (not in allowed list)".data)
      = .ok (g, []) := by
  have hshape : "# [sandbox] BLOCKED: ".data
        ++ ("import ".data ++ (m1 ++ [cl])) ++ " (not in allowed list)".data
      = '#' :: ((" [sandbox] BLOCKED: import ".data ++ m1
          ++ (cl :: " (not in allowed list".data)) ++ [')']) := by
    simp
  have hstrip : pyStrip ('#' :: ((" [sandbox] BLOCKED: import ".data ++ m1
        ++ (cl :: " (not in allowed list".data)) ++ [')']))
      = '#' :: ((" [sandbox] BLOCKED: import ".data ++ m1
        ++ (cl :: " (not in allowed list".data)) ++ [')']) :=
    pyStrip_of_edges (by decide) (by decide)
  rw [Executor.execLine]
  rw [hshape, hstrip]
  simp

/-- Running the preprocessed one-comment submission succeeds and changes
nothing. -/
theorem runLines_blocked_comment (m1 : Str) (cl : Char)
    (g : Executor.SandboxGlobals) :
    Executor.runLines g ["# [sandbox] BLOCKED: ".data
        ++ ("import ".data ++ (m1 ++ [cl])) ++ " (not in allowed list)".data]
      = (g, [], none) := by
  rw [Executor.runLines, execLine_blocked_comment]
  simp [Executor.runLines]

/-- `SandboxExecutor.execute` on `import <module>` for a module outside the
allow-list: the call succeeds with empty output, no error, and an untouched
variable diff. -/
theorem execute_blocked_import {m1 : Str} {cl : Char}
    (hid : ∀ c ∈ m1 ++ [cl], c.isAlpha = true ∨ c = '_')
    (hlazy : Executor.lazyImportKeys (m1 ++ [cl]) = none)
    (hglob : Executor.globalsContains Executor.freshSandboxGlobals (m1 ++ [cl]) = false) :
    Executor.execute ("import ".data ++ (m1 ++ [cl])) "a".data =
      { success := true, stdout := [], stderr := [], errorMessage := none,
        varTypes := Executor.variablesOf Executor.freshSandboxGlobals } := by
  have hpre := preprocessCode_blocked hid hlazy hglob
  have hrun := runLines_blocked_comment m1 cl Executor.freshSandboxGlobals
  simp only [Executor.execute, List.foldl_nil, hpre, hrun]

/-- C2 amended: for every identifier-named module outside the allow-list and
not already bound in the namespace, `Execute("import <module>")` does not
fail: the import line is replaced by the comment
`# [sandbox] BLOCKED: import <module> (not in allowed list)` — which
mentions the module name — and the call returns `success=true` with no
error and no variable diff.  The concrete conjuncts show lenient-degrade on
the spec's scenario: statements not depending on the blocked module still
run, bind their variables, and can print them. -/
theorem C2_blocked_import_lenient_amended :
    (∀ (m : Str), m ≠ [] →
      (∀ c ∈ m, c.isAlpha = true ∨ c = '_') →
      Executor.lazyImportKeys m = none →
      Executor.globalsContains Executor.freshSandboxGlobals m = false →
      (Executor.preprocessCode Executor.freshSandboxGlobals ("import ".data ++ m)).1 =
        ["# [sandbox] BLOCKED: ".data ++ ("import ".data ++ m)
          ++ " (not in allowed list)".data] ∧
      (∃ pre suf, (Executor.preprocessCode Executor.freshSandboxGlobals
          ("import ".data ++ m)).1.headD [] = pre ++ (m ++ suf)) ∧
      (Executor.execute ("import ".data ++ m) "a".data).success = true ∧
      (Executor.execute ("import ".data ++ m) "a".data).errorMessage = none ∧
      (Executor.execute ("import ".data ++ m) "a".data).varTypes = []) ∧
    (Executor.execute "import blocked_module\nx = 1 + 1".data "a".data).success = true ∧
    (Executor.execute "import blocked_module\nx = 1 + 1".data "a".data).varTypes =
      [("x".data, "int".data)] ∧
    (Executor.execute "import blocked_module\nx = 1 + 1\nprint(x)".data
      "a".data).stdout = "2\n".data := by
  constructor
  · intro m hne hid hlazy hglob
    obtain ⟨m1, cl, rfl⟩ : ∃ m1 cl, m = m1 ++ [cl] := by
      rcases List.eq_nil_or_concat m with h | ⟨L, b, h⟩
      · exact absurd h hne
      · exact ⟨L, b, by rw [h, List.concat_eq_append]⟩
    have hpre := preprocessCode_blocked hid hlazy hglob
    have hexec := execute_blocked_import hid hlazy hglob
    refine ⟨by rw [hpre], ?_, by rw [hexec], by rw [hexec], by rw [hexec]; decide⟩
    refine ⟨"# [sandbox] BLOCKED: import ".data, " (not in allowed list)".data, ?_⟩
    rw [hpre]
    simp
  · exact ⟨by decide, by decide, by decide⟩

/-- C2 witness: the amended statement instantiated at the spec scenario's
module name `blocked_module`. -/
theorem C2_witness :
    (Executor.execute ("import ".data ++ "blocked_module".data) "a".data).success
      = true ∧
    (Executor.execute ("import ".data ++ "blocked_module".data) "a".data).errorMessage
      = none :=
  ⟨(C2_blocked_import_lenient_amended.1 "blocked_module".data (by decide)
      (by decide) (by decide) (by decide)).2.2.1,
   (C2_blocked_import_lenient_amended.1 "blocked_module".data (by decide)
      (by decide) (by decide) (by decide)).2.2.2.1⟩

end PowerInterpreter
